import Mathlib

/-!
Verification of the Redis-OM order-ingestion pipeline.

Shallow embedding of:
- `SubAndInsertOrders.py` : `process_order` (RecordValidator) and
  `subscribe_and_insert_orders` (IngestionLoop with cursor `last_id`);
- `SubOrders.py` : `subscribe_to_orders` (ObservabilityConsumer);
- the `xread` request shape both loops issue.

Side effects are made explicit: `print` calls become `LogEvent` values
appended to a log list, `time.sleep(n)` increments a `slept` counter,
`order.save()` outcomes (the external Store either succeeds or raises) are an
input to the step function, and `sys.exit` / clean return set a `done` exit
status.  Stream entry ids are modelled as naturals ordered like the broker
orders them; the special start position `"$"` is `StreamPos.latest`.
-/

/-- A raw field map as delivered by the broker: field name to string value. -/
abbrev RawRecord := List (String × String)

/-- `d.get(k, dflt)` on the Python dict: value at `k`, or the default. -/
def rget (d : RawRecord) (k dflt : String) : String :=
  match d.lookup k with
  | some v => v
  | none => dflt

/-- A calendar date, as produced by `datetime.date()` (time-of-day discarded). -/
structure Date where
  year : Nat
  month : Nat
  day : Nat
deriving DecidableEq, Repr

def isLeapYear (y : Nat) : Bool :=
  (y % 4 == 0 && y % 100 != 0) || (y % 400 == 0)

def daysInMonth (y m : Nat) : Nat :=
  if m = 2 then (if isLeapYear y then 29 else 28)
  else if m = 4 ∨ m = 6 ∨ m = 9 ∨ m = 11 then 30
  else 31

/-- The numeric value of a decimal digit character, `none` otherwise. -/
def charDigit (c : Char) : Option Nat :=
  if '0' ≤ c ∧ c ≤ '9' then some (c.toNat - '0'.toNat) else none

def digitsToNatAux (acc : Nat) : List Char → Option Nat
  | [] => some acc
  | c :: cs =>
    match charDigit c with
    | some d => digitsToNatAux (acc * 10 + d) cs
    | none => none

/-- A non-empty all-digit character run as a natural number. -/
def digitsToNat (cs : List Char) : Option Nat :=
  match cs with
  | [] => none
  | _ => digitsToNatAux 0 cs

/-- Split a character list at every occurrence of `c` (like `str.split`). -/
def splitOnChar (c : Char) : List Char → List (List Char)
  | [] => [[]]
  | x :: xs =>
    let r := splitOnChar c xs
    if x = c then [] :: r
    else
      match r with
      | [] => [[x]]
      | y :: ys => (x :: y) :: ys

/-- `int(s)`: an optional minus sign followed by digits. -/
def strToInt (cs : List Char) : Option Int :=
  match cs with
  | '-' :: rest => (digitsToNat rest).map fun n => -(n : Int)
  | _ => (digitsToNat cs).map fun n => (n : Int)

/-- A 1- or 2-digit numeric field (the `%m`, `%d`, `%H`, `%M` directives). -/
def parseField12 (cs : List Char) : Option Nat :=
  if cs.length = 1 ∨ cs.length = 2 then digitsToNat cs else none

/-- A 4-digit numeric field (the `%Y` directive). -/
def parseField4 (cs : List Char) : Option Nat :=
  if cs.length = 4 then digitsToNat cs else none

/-- `datetime.strptime(s, '%m/%d/%Y %H:%M').date()` from `process_order`:
month/day/4-digit-year space hour:minute, ranges checked (24-hour clock,
day valid for the month and leap year), then the time of day is discarded.
Returns `none` where the Python raises `ValueError`/`TypeError`. -/
def parseInvoiceDate (s : String) : Option Date :=
  match splitOnChar ' ' s.toList with
  | [datePart, timePart] =>
    match splitOnChar '/' datePart with
    | [mStr, dStr, yStr] =>
      match splitOnChar ':' timePart with
      | [hStr, minStr] =>
        match parseField12 mStr, parseField12 dStr, parseField4 yStr,
              parseField12 hStr, parseField12 minStr with
        | some m, some d, some y, some h, some mi =>
          if 1 ≤ y ∧ 1 ≤ m ∧ m ≤ 12 ∧ 1 ≤ d ∧ d ≤ daysInMonth y m ∧
             h ≤ 23 ∧ mi ≤ 59
          then some ⟨y, m, d⟩ else none
        | _, _, _, _, _ => none
      | _ => none
    | _ => none
  | _ => none

/-- A non-negative decimal number `mantissa / 10 ^ scale`, kept as parsed. -/
structure DecimalVal where
  mantissa : Nat
  scale : Nat
deriving DecidableEq, Repr

/-- The rational value of a `DecimalVal`. -/
def DecimalVal.toRat (x : DecimalVal) : ℚ :=
  (x.mantissa : ℚ) / (10 : ℚ) ^ x.scale

/-- Modelled from the spec: `Schema.py` (the pydantic `Product` class) is not
under src; per the spec the unit price "must parse as a non-negative
decimal; invalid price is a validation failure".  Digits, optionally a dot
and more digits; anything else (including a sign) fails. -/
def parseNonNegDecimal (s : String) : Option DecimalVal :=
  match splitOnChar '.' s.toList with
  | [a] => (digitsToNat a).map fun n => ⟨n, 0⟩
  | [a, b] =>
    match digitsToNat a, digitsToNat b with
    | some n, some f => some ⟨n * 10 ^ b.length + f, b.length⟩
    | _, _ => none
  | _ => none

/-- Normalized product reference (the pydantic `Product`). -/
structure Product where
  stockCode : String
  description : String
  unitPrice : DecimalVal
deriving DecidableEq, Repr

/-- Modelled from the spec: `Product(StockCode=…, Description=…, UnitPrice=…)`
validates the price; a bad price raises `ValidationError` (here `none`). -/
def mkProduct (code desc priceStr : String) : Option Product :=
  (parseNonNegDecimal priceStr).map fun p => ⟨code, desc, p⟩

/-- Normalized order record (the pydantic `Order`). -/
structure Order where
  invoiceNo : String
  item : Product
  quantity : Int
  invoiceDate : Date
  customerID : String
  country : String
deriving DecidableEq, Repr

/-- Modelled from the spec: the derived storage key is the invoice number
(`order.key()` from redis-om, keyed by the primary-key field). -/
def Order.key (o : Order) : String := o.invoiceNo

/-- One `print` call of the pipeline, as a structured event. -/
inductive LogEvent
  | processingEntry (id : Nat)
  | invalidDate (raw : String)
  | validationFailed
  | savedOk (key : String)
  | saveFailed
  | connFailed
  | unexpectedFailure
  | exiting
deriving DecidableEq, Repr

/-- `process_order` from `SubAndInsertOrders.py`: build the `Product` (a bad
price is a `ValidationError`, caught and logged), parse the invoice date
(failure logs the offending raw string and returns `None`), then build the
`Order` (pydantic parses `Quantity` as an integer; failure is a
`ValidationError`, caught and logged).  The returned list is what the
function printed.  The pydantic field conversions are modelled from the
spec because `Schema.py` is not under src. -/
def process_order (d : RawRecord) : Option Order × List LogEvent :=
  match mkProduct (rget d "StockCode" "") (rget d "Description" "")
        (rget d "UnitPrice" "0") with
  | none => (none, [LogEvent.validationFailed])
  | some item =>
    match parseInvoiceDate (rget d "InvoiceDate" "") with
    | none => (none, [LogEvent.invalidDate (rget d "InvoiceDate" "")])
    | some dt =>
      match strToInt (rget d "Quantity" "1").toList with
      | none => (none, [LogEvent.validationFailed])
      | some q =>
        (some ⟨rget d "InvoiceNo" "", item, q, dt,
               rget d "CustomerID" "", rget d "Country" ""⟩, [])

/-- A position in the stream: the special start value `"$"` or a concrete
broker-assigned entry id (naturals, ordered as the broker orders entries). -/
inductive StreamPos
  | latest
  | pos (id : Nat)
deriving DecidableEq, Repr

/-- Strict broker order on concrete stream positions: the left one is an
entry id strictly before the right one. -/
def StreamPos.idLt : StreamPos → StreamPos → Prop
  | StreamPos.pos x, StreamPos.pos y => x < y
  | _, _ => False

/-- State of one `subscribe_and_insert_orders` session: the cursor
(`last_id`), the processed counter, the connection handle generation
(incremented on reconnect), total time slept, the list of completed
`order.save()` calls (key and record, in order), the printed log, and the
exit status once the process is done (`some 0` clean exit on operator
interrupt, `some 1` for `sys.exit(1)`). -/
structure SessionState where
  cursor : StreamPos
  processedCount : Nat
  connGen : Nat
  slept : Nat
  saves : List (String × Order)
  log : List LogEvent
  done : Option Nat
deriving DecidableEq, Repr

/-- Session state right after a successful startup connection. -/
def initialState : SessionState :=
  { cursor := StreamPos.latest, processedCount := 0, connGen := 1, slept := 0,
    saves := [], log := [], done := none }

/-- Per-entry outcome injected by the environment: `normal saveOk` means
processing runs the code path where `order.save()` succeeds (`true`) or
raises a storage error (`false`); `unexpectedFailure` means an unexpected
exception is raised while handling this entry. -/
inductive EntryOutcome
  | normal (saveOk : Bool)
  | unexpectedFailure
deriving DecidableEq, Repr

/-- One stream entry as delivered to the loop body, together with the
environment-chosen outcome of processing it. -/
structure Entry where
  id : Nat
  data : RawRecord
  outcome : EntryOutcome
deriving DecidableEq, Repr

/-- The body of the inner `for entry_id, order_data in entries` loop of
`subscribe_and_insert_orders`, on the normal (no unexpected exception)
path: print the processing banner, run `process_order`; on a validated
order try `order.save()` (success appends the save and increments
`processed_count`; a storage error is caught and logged); in every case
finally set `last_id = entry_id` — the assignment is outside the
`if order:` block and runs unconditionally. -/
def processEntryN (saveOk : Bool) (s : SessionState) (entryId : Nat)
    (d : RawRecord) : SessionState :=
  match process_order d with
  | (some o, plog) =>
    if saveOk then
      { s with log := s.log ++ [LogEvent.processingEntry entryId] ++ plog
                        ++ [LogEvent.savedOk o.key],
               saves := s.saves ++ [(o.key, o)],
               processedCount := s.processedCount + 1,
               cursor := StreamPos.pos entryId }
    else
      { s with log := s.log ++ [LogEvent.processingEntry entryId] ++ plog
                        ++ [LogEvent.saveFailed],
               cursor := StreamPos.pos entryId }
  | (none, plog) =>
    { s with log := s.log ++ [LogEvent.processingEntry entryId] ++ plog,
             cursor := StreamPos.pos entryId }

/-- Processing of the batch returned by one successful `xread`.  An
unexpected exception while handling an entry propagates out of the `for`
loops to the `except Exception` handler at the `while` level: it is logged,
`time.sleep(1)` runs, the remaining entries of the batch are abandoned, and
the loop continues — note `last_id` was not reassigned for that entry. -/
def processBatch (s : SessionState) : List Entry → SessionState
  | [] => s
  | e :: es =>
    match e.outcome with
    | EntryOutcome.unexpectedFailure =>
      { s with log := s.log ++ [LogEvent.unexpectedFailure],
               slept := s.slept + 1 }
    | EntryOutcome.normal saveOk =>
      processBatch (processEntryN saveOk s e.id e.data) es

/-- One iteration of the `while True` loop, driven by what the environment
does: a successful `xread` returning a batch (possibly empty on timeout), a
`redis.exceptions.ConnectionError` during the read (`reconnectOk` tells
whether the subsequent `create_redis_connection()` succeeds), or a
`KeyboardInterrupt` from the operator. -/
inductive LoopEvent
  | read (batch : List Entry)
  | connError (reconnectOk : Bool)
  | interrupt
deriving DecidableEq, Repr

/-- One iteration of `subscribe_and_insert_orders`'s `while True` loop.  On
`connError`: log, `time.sleep(5)`, then `create_redis_connection()` — which
either yields a fresh connection (generation bump) or itself fails and
calls `sys.exit(1)`, ending the process with status 1.  On `interrupt`:
log and `break`, after which the function returns cleanly (status 0). -/
def step (s : SessionState) : LoopEvent → SessionState
  | LoopEvent.read batch => processBatch s batch
  | LoopEvent.connError reconnectOk =>
    let s1 : SessionState :=
      { s with log := s.log ++ [LogEvent.connFailed], slept := s.slept + 5 }
    if reconnectOk then { s1 with connGen := s1.connGen + 1 }
    else { s1 with done := some 1 }
  | LoopEvent.interrupt =>
    { s with log := s.log ++ [LogEvent.exiting], done := some 0 }

/-- Run of the session loop over a sequence of environment events; once the
process is done no further iteration happens. -/
def run (s : SessionState) : List LoopEvent → SessionState
  | [] => s
  | e :: es => if s.done.isSome then s else run (step s e) es

/-- The shape of one `redis_client.xread({stream: last_id}, count, block)`
request. -/
structure ReadRequest where
  stream : String
  fromPos : StreamPos
  count : Nat
  blockMs : Nat
deriving DecidableEq, Repr

/-- The `xread` request `subscribe_and_insert_orders` issues next, given the
session state: from the current cursor, `count=1`, `block=1000`. -/
def ingestReadRequest (stream : String) (s : SessionState) : ReadRequest :=
  { stream := stream, fromPos := s.cursor, count := 1, blockMs := 1000 }

/-- The `xread` request `subscribe_to_orders` (`SubOrders.py`) issues, given
its in-memory cursor: from the cursor, `count=1`, `block=1000`. -/
def observeReadRequest (stream : String) (cursor : StreamPos) : ReadRequest :=
  { stream := stream, fromPos := cursor, count := 1, blockMs := 1000 }

/-- The broker contract for `xread` (spec §6): a reply delivers at most
`count` entries. -/
def BrokerReply (req : ReadRequest) (batch : List Entry) : Prop :=
  batch.length ≤ req.count

/-- Whether a log line reports a per-record validation rejection (a bad
date or a pydantic validation error). -/
def LogEvent.isRejection : LogEvent → Bool
  | LogEvent.invalidDate _ => true
  | LogEvent.validationFailed => true
  | _ => false

/-- Number of validation-rejection lines in a log. -/
def rejectionCount (l : List LogEvent) : Nat :=
  (l.filter LogEvent.isRejection).length

/-- Whether the environment lets this entry run the normal code path (no
unexpected exception). -/
def Entry.isNormal (e : Entry) : Bool :=
  match e.outcome with
  | EntryOutcome.normal _ => true
  | EntryOutcome.unexpectedFailure => false

/-- The concrete input row of spec §8's first scenario. -/
def rowC9 : RawRecord :=
  [("StockCode", "A1"), ("Description", "Widget"), ("UnitPrice", "2.50"),
   ("InvoiceNo", "INV1"), ("Quantity", "3"),
   ("InvoiceDate", "12/1/2010 8:26"), ("CustomerID", "C1"), ("Country", "UK")]

/-- The validated order the scenario row normalizes to. -/
def orderC9 : Order :=
  { invoiceNo := "INV1",
    item := { stockCode := "A1", description := "Widget",
              unitPrice := { mantissa := 250, scale := 2 } },
    quantity := 3,
    invoiceDate := { year := 2010, month := 12, day := 1 },
    customerID := "C1", country := "UK" }

/-- A row with an unparseable unit price and no date field. -/
def badPriceRow : RawRecord := [("UnitPrice", "x")]

/-- A row whose date string does not parse. -/
def badDateRow : RawRecord := [("InvoiceDate", "not-a-date")]

/-- A row with a parseable date and every defaulted field absent. -/
def defaultsRow : RawRecord := [("InvoiceDate", "12/1/2010 8:26")]

/-- The order `defaultsRow` normalizes to: every defaulted field filled in. -/
def defaultsOrder : Order :=
  { invoiceNo := "",
    item := { stockCode := "", description := "",
              unitPrice := { mantissa := 0, scale := 0 } },
    quantity := 1,
    invoiceDate := { year := 2010, month := 12, day := 1 },
    customerID := "", country := "" }

/-- A row with a parseable date but a non-integer quantity. -/
def badQtyRow : RawRecord :=
  [("Quantity", "3.5"), ("InvoiceDate", "12/1/2010 8:26")]

lemma process_order_cases (d : RawRecord) :
    (∃ o, process_order d = (some o, [])) ∨
    process_order d = (none, [LogEvent.invalidDate (rget d "InvoiceDate" "")]) ∨
    process_order d = (none, [LogEvent.validationFailed]) := by
  unfold process_order
  cases mkProduct (rget d "StockCode" "") (rget d "Description" "")
      (rget d "UnitPrice" "0") with
  | none => right; right; rfl
  | some item =>
    cases parseInvoiceDate (rget d "InvoiceDate" "") with
    | none => right; left; rfl
    | some dt =>
      cases strToInt (rget d "Quantity" "1").toList with
      | none => right; right; rfl
      | some q => left; exact ⟨_, rfl⟩

lemma process_order_some_snd (d : RawRecord) (o : Order)
    (h : (process_order d).1 = some o) : process_order d = (some o, []) := by
  rcases process_order_cases d with ⟨o2, h2⟩ | h2 | h2 <;> rw [h2] at h ⊢ <;>
    simp_all

lemma process_order_none_rejections (d : RawRecord)
    (h : (process_order d).1 = none) :
    rejectionCount (process_order d).2 = 1 := by
  rcases process_order_cases d with ⟨o2, h2⟩ | h2 | h2 <;> rw [h2] at h ⊢ <;>
    simp_all [rejectionCount, List.filter, LogEvent.isRejection]

lemma rejectionCount_append (l1 l2 : List LogEvent) :
    rejectionCount (l1 ++ l2) = rejectionCount l1 + rejectionCount l2 := by
  simp [rejectionCount, List.filter_append]

lemma processEntryN_cursor (b : Bool) (s : SessionState) (i : Nat)
    (d : RawRecord) : (processEntryN b s i d).cursor = StreamPos.pos i := by
  unfold processEntryN
  rcases h : process_order d with ⟨_ | o, plog⟩ <;> cases b <;> simp

lemma processEntryN_done (b : Bool) (s : SessionState) (i : Nat)
    (d : RawRecord) : (processEntryN b s i d).done = s.done := by
  unfold processEntryN
  rcases h : process_order d with ⟨_ | o, plog⟩ <;> cases b <;> simp

lemma processEntryN_valid_saved (s : SessionState) (i : Nat) (d : RawRecord)
    (o : Order) (h : (process_order d).1 = some o) :
    processEntryN true s i d =
      { s with log := s.log ++ [LogEvent.processingEntry i]
                        ++ [LogEvent.savedOk o.key],
               saves := s.saves ++ [(o.key, o)],
               processedCount := s.processedCount + 1,
               cursor := StreamPos.pos i } := by
  unfold processEntryN
  rw [process_order_some_snd d o h]
  simp

lemma processEntryN_invalid (b : Bool) (s : SessionState) (i : Nat)
    (d : RawRecord) (h : (process_order d).1 = none) :
    processEntryN b s i d =
      { s with log := s.log ++ [LogEvent.processingEntry i]
                        ++ (process_order d).2,
               cursor := StreamPos.pos i } := by
  unfold processEntryN
  rcases h2 : process_order d with ⟨_ | o, plog⟩
  · simp
  · rw [h2] at h; simp at h

lemma processEntryN_saves_mono (b : Bool) (s : SessionState) (i : Nat)
    (d : RawRecord) :
    (processEntryN b s i d).saves = s.saves ∨
    ∃ o, (process_order d).1 = some o ∧
      (processEntryN b s i d).saves = s.saves ++ [(o.key, o)] := by
  unfold processEntryN
  rcases h : process_order d with ⟨_ | o, plog⟩ <;> cases b <;> simp

lemma processBatch_done (s : SessionState) (b : List Entry) :
    (processBatch s b).done = s.done := by
  induction b generalizing s with
  | nil => rfl
  | cons e es ih =>
    unfold processBatch
    cases e.outcome with
    | unexpectedFailure => rfl
    | normal saveOk => rw [ih, processEntryN_done]

lemma processBatch_append_normal (s : SessionState) (b1 b2 : List Entry)
    (h : ∀ e ∈ b1, e.isNormal) :
    processBatch s (b1 ++ b2) = processBatch (processBatch s b1) b2 := by
  induction b1 generalizing s with
  | nil => rfl
  | cons e es ih =>
    obtain ⟨i, d, oc⟩ := e
    cases oc with
    | unexpectedFailure =>
      have he := h ⟨i, d, EntryOutcome.unexpectedFailure⟩ (by simp)
      simp [Entry.isNormal] at he
    | normal saveOk =>
      simp only [List.cons_append, processBatch]
      exact ih (processEntryN saveOk s i d)
        fun x hx => h x (List.mem_cons_of_mem _ hx)

lemma processBatch_cursor_last (s : SessionState) (b : List Entry) (z : Entry)
    (h : ∀ e ∈ b, e.isNormal) (hz : b.getLast? = some z) :
    (processBatch s b).cursor = StreamPos.pos z.id := by
  induction b generalizing s with
  | nil => simp at hz
  | cons e es ih =>
    obtain ⟨i, d, oc⟩ := e
    cases oc with
    | unexpectedFailure =>
      have he := h ⟨i, d, EntryOutcome.unexpectedFailure⟩ (by simp)
      simp [Entry.isNormal] at he
    | normal saveOk =>
      simp only [processBatch]
      cases es with
      | nil =>
        simp only [List.getLast?_singleton, Option.some.injEq] at hz
        subst hz
        exact processEntryN_cursor saveOk s i d
      | cons e2 es2 =>
        rw [List.getLast?_cons_cons] at hz
        exact ih (processEntryN saveOk s i d)
          (fun x hx => h x (List.mem_cons_of_mem _ hx)) hz

/-- C9: the scenario row with StockCode A1, Description Widget, UnitPrice
2.50, InvoiceNo INV1, Quantity 3, InvoiceDate 12/1/2010 8:26, CustomerID
C1, Country UK validates to an OrderRecord with item price 2.50, quantity
3, and invoice date 2010-12-01 (time of day discarded), and processing the
entry stores exactly that record under its derived key. -/
theorem C9_concrete_scenario :
    process_order rowC9 = (some orderC9, []) ∧
    orderC9.item.unitPrice.toRat = (5 : ℚ) / 2 ∧
    orderC9.quantity = 3 ∧
    orderC9.invoiceDate = { year := 2010, month := 12, day := 1 } ∧
    (processBatch initialState
      [{ id := 1, data := rowC9, outcome := EntryOutcome.normal true }]).saves
      = [(orderC9.key, orderC9)] := by
  refine ⟨by decide, ?_, by decide, by decide, by decide⟩
  norm_num [orderC9, DecimalVal.toRat]

/-- C5: a broker connectivity error during a read is handled by sleeping 5
time-units and re-establishing the connection (fresh handle generation);
the cursor and the processed count are unchanged, the loop is not
terminated, and the next read request starts from the very cursor held
before the error. -/
theorem C5_reconnect_frame (stream : String) (s : SessionState) :
    (step s (LoopEvent.connError true)).cursor = s.cursor ∧
    (step s (LoopEvent.connError true)).processedCount = s.processedCount ∧
    (step s (LoopEvent.connError true)).slept = s.slept + 5 ∧
    (step s (LoopEvent.connError true)).connGen = s.connGen + 1 ∧
    (step s (LoopEvent.connError true)).done = s.done ∧
    ingestReadRequest stream (step s (LoopEvent.connError true)) =
      { stream := stream, fromPos := s.cursor, count := 1, blockMs := 1000 } := by
  simp [step, ingestReadRequest]

/-- C1 counterexample: an entry that validates but whose `order.save()`
raises a storage error still has the cursor advanced to its position —
`last_id = entry_id` sits outside the `if order:` block — so after the
failed persist the cursor is NOT the position held before the entry. -/
theorem C1_counterexample :
    (process_order rowC9).1 = some orderC9 ∧
    (processEntryN false initialState 7 rowC9).log
      = [LogEvent.processingEntry 7, LogEvent.saveFailed] ∧
    (processEntryN false initialState 7 rowC9).cursor ≠ initialState.cursor ∧
    (processEntryN false initialState 7 rowC9).cursor = StreamPos.pos 7 := by
  decide

/-- C1 (amended): for every entry whose validation succeeds but whose
`Store.save` call raises a storage error, the loop logs the error, does
not persist the record or count it as processed, does not crash, and
continues with the next entry — but the cursor IS advanced to the failed
entry's position (the entry will not be redelivered from this cursor). -/
theorem C1_storage_error_behavior (s : SessionState) (i : Nat)
    (d : RawRecord) (rest : List Entry) (o : Order)
    (h : (process_order d).1 = some o) :
    (processEntryN false s i d).saves = s.saves ∧
    (processEntryN false s i d).processedCount = s.processedCount ∧
    (processEntryN false s i d).log
      = s.log ++ [LogEvent.processingEntry i, LogEvent.saveFailed] ∧
    (processEntryN false s i d).cursor = StreamPos.pos i ∧
    (processEntryN false s i d).done = s.done ∧
    processBatch s
        ({ id := i, data := d, outcome := EntryOutcome.normal false } :: rest)
      = processBatch (processEntryN false s i d) rest := by
  have hp := process_order_some_snd d o h
  refine ⟨?_, ?_, ?_, ?_, ?_, ?_⟩ <;>
    simp [processEntryN, processBatch, hp]

/-- Witness for C1: the amended behavior at a concrete storage failure. -/
theorem C1_witness :
    (processEntryN false initialState 7 rowC9).saves = initialState.saves ∧
    (processEntryN false initialState 7 rowC9).processedCount
      = initialState.processedCount :=
  ⟨(C1_storage_error_behavior initialState 7 rowC9 [] orderC9 (by decide)).1,
   (C1_storage_error_behavior initialState 7 rowC9 [] orderC9
      (by decide)).2.1⟩

/-- C6 counterexample: for a record whose date field is absent (hence
unparseable) but whose unit price is also invalid, `process_order` builds
the `Product` first, so the pydantic validation error is logged and the
offending raw date string is never logged. -/
theorem C6_counterexample :
    rget badPriceRow "InvoiceDate" "" = "" ∧
    parseInvoiceDate "" = none ∧
    process_order badPriceRow = (none, [LogEvent.validationFailed]) ∧
    LogEvent.invalidDate "" ∉ [LogEvent.validationFailed] := by
  decide

/-- C6 (amended): for every record whose date is absent or unparseable,
`process_order` returns a failure (no `Order`, no exception), no Store
call occurs when the loop handles the entry, and the offending raw date
string is logged provided the item fields validated (an invalid unit
price is reported as a validation error instead, still with no Store
call). -/
theorem C6_bad_date_validation (d : RawRecord) (s : SessionState) (i : Nat)
    (b : Bool) (h : parseInvoiceDate (rget d "InvoiceDate" "") = none) :
    (process_order d).1 = none ∧
    ((mkProduct (rget d "StockCode" "") (rget d "Description" "")
        (rget d "UnitPrice" "0")).isSome →
      LogEvent.invalidDate (rget d "InvoiceDate" "") ∈ (process_order d).2) ∧
    (processEntryN b s i d).saves = s.saves ∧
    (processEntryN b s i d).processedCount = s.processedCount := by
  cases hp : mkProduct (rget d "StockCode" "") (rget d "Description" "")
      (rget d "UnitPrice" "0") with
  | none =>
    refine ⟨?_, ?_, ?_, ?_⟩ <;> simp [process_order, processEntryN, hp]
  | some item =>
    refine ⟨?_, ?_, ?_, ?_⟩ <;> simp [process_order, processEntryN, hp, h]

/-- Witness for C6: the amended behavior at a concrete unparseable date. -/
theorem C6_witness :
    (process_order badDateRow).1 = none ∧
    (processEntryN true initialState 3 badDateRow).saves
      = initialState.saves :=
  ⟨(C6_bad_date_validation badDateRow initialState 3 true (by decide)).1,
   (C6_bad_date_validation badDateRow initialState 3 true (by decide)).2.2.1⟩

/-- C8: validation substitutes defaults for absent keys — item code and
description become the empty string, the unit price string becomes "0"
(value 0), quantity becomes 1 — and a quantity that is present but not an
integer makes validation fail. -/
theorem C8_defaults (d : RawRecord) :
    (∀ o : Order, d.lookup "StockCode" = none → d.lookup "Description" = none →
      d.lookup "UnitPrice" = none → d.lookup "Quantity" = none →
      (process_order d).1 = some o →
      o.item.stockCode = "" ∧ o.item.description = "" ∧
      o.item.unitPrice = { mantissa := 0, scale := 0 } ∧ o.quantity = 1) ∧
    (∀ q : String, d.lookup "Quantity" = some q → strToInt q.toList = none →
      (process_order d).1 = none) := by
  constructor
  · intro o h1 h2 h3 h4 h5
    have hsc : rget d "StockCode" "" = "" := by simp [rget, h1]
    have hde : rget d "Description" "" = "" := by simp [rget, h2]
    have hup : rget d "UnitPrice" "0" = "0" := by simp [rget, h3]
    have hqr : rget d "Quantity" "1" = "1" := by simp [rget, h4]
    have hmk : mkProduct "" "" "0"
        = some { stockCode := "", description := "",
                 unitPrice := { mantissa := 0, scale := 0 } } := by decide
    have h1q : strToInt ("1".toList) = some 1 := by decide
    cases hdt : parseInvoiceDate (rget d "InvoiceDate" "") with
    | none =>
      simp only [process_order, hsc, hde, hup, hqr, hmk, hdt] at h5
      simp at h5
    | some dt =>
      simp only [process_order, hsc, hde, hup, hqr, hmk, hdt, h1q,
        Option.some.injEq] at h5
      subst h5
      simp
  · intro q hq hqi
    cases hp : mkProduct (rget d "StockCode" "") (rget d "Description" "")
        (rget d "UnitPrice" "0") with
    | none => simp [process_order, hp]
    | some item =>
      cases hdt : parseInvoiceDate (rget d "InvoiceDate" "") with
      | none => simp [process_order, hp, hdt]
      | some dt =>
        have hr : rget d "Quantity" "1" = q := by simp [rget, hq]
        simp only [process_order, hp, hdt, hr, hqi]

/-- Witness for C8: the defaults at a concrete all-absent row and the
failure at a concrete non-integer quantity. -/
theorem C8_witness :
    (defaultsOrder.item.stockCode = "" ∧ defaultsOrder.item.description = "" ∧
     defaultsOrder.item.unitPrice = { mantissa := 0, scale := 0 } ∧
     defaultsOrder.quantity = 1) ∧
    (process_order badQtyRow).1 = none :=
  ⟨(C8_defaults defaultsRow).1 defaultsOrder (by decide) (by decide)
      (by decide) (by decide) (by decide),
   (C8_defaults badQtyRow).2 "3.5" (by decide) (by decide)⟩

/-- C2 counterexample: an unexpected error while handling an entry is
caught at the `while`-loop level, before `last_id = entry_id` ran for that
entry — the error is logged and the loop continues, but the cursor is NOT
advanced past the entry (it stays at the previous position). -/
theorem C2_counterexample :
    (processBatch { initialState with cursor := StreamPos.pos 3 }
      [{ id := 5, data := rowC9,
         outcome := EntryOutcome.unexpectedFailure }]).cursor
      = StreamPos.pos 3 ∧
    StreamPos.pos 3 ≠ StreamPos.pos 5 ∧
    (processBatch { initialState with cursor := StreamPos.pos 3 }
      [{ id := 5, data := rowC9,
         outcome := EntryOutcome.unexpectedFailure }]).done = none ∧
    LogEvent.unexpectedFailure ∈
      (processBatch { initialState with cursor := StreamPos.pos 3 }
        [{ id := 5, data := rowC9,
           outcome := EntryOutcome.unexpectedFailure }]).log := by
  decide

/-- C2 (amended): an unexpected error while processing an entry is logged
and the loop sleeps one time-unit and continues without crashing, but the
entry is skipped with the cursor NOT advanced past it (the cursor keeps
the value it had before the entry; the rest of the batch is abandoned). -/
theorem C2_unexpected_error_behavior (s : SessionState) (pre : List Entry)
    (i : Nat) (d : RawRecord) (rest : List Entry)
    (h : ∀ e ∈ pre, e.isNormal) :
    processBatch s (pre ++
        { id := i, data := d, outcome := EntryOutcome.unexpectedFailure }
          :: rest)
      = { processBatch s pre with
          log := (processBatch s pre).log ++ [LogEvent.unexpectedFailure],
          slept := (processBatch s pre).slept + 1 } ∧
    (processBatch s (pre ++
        { id := i, data := d, outcome := EntryOutcome.unexpectedFailure }
          :: rest)).cursor = (processBatch s pre).cursor ∧
    (processBatch s (pre ++
        { id := i, data := d, outcome := EntryOutcome.unexpectedFailure }
          :: rest)).done = s.done := by
  rw [processBatch_append_normal s pre _ h]
  refine ⟨rfl, rfl, ?_⟩
  rw [show (processBatch (processBatch s pre)
      ({ id := i, data := d, outcome := EntryOutcome.unexpectedFailure }
        :: rest))
    = { processBatch s pre with
        log := (processBatch s pre).log ++ [LogEvent.unexpectedFailure],
        slept := (processBatch s pre).slept + 1 } from rfl]
  exact processBatch_done s pre

/-- Witness for C2: the amended behavior at a concrete failing entry. -/
theorem C2_witness :
    (processBatch initialState ([] ++
        { id := 5, data := rowC9, outcome := EntryOutcome.unexpectedFailure }
          :: [])).done = initialState.done :=
  (C2_unexpected_error_behavior initialState [] 5 rowC9 [] (by simp)).2.2

/-- C3 counterexample: a single mid-loop connectivity error whose
reconnection attempt fails ends the process with exit status 1 — no
operator interrupt is involved, so the loop does terminate on its own. -/
theorem C3_counterexample :
    (run initialState [LoopEvent.connError false]).done = some 1 ∧
    LoopEvent.interrupt ∉ [LoopEvent.connError false] := by
  decide

/-- C3 (amended): the loop survives arbitrarily many mid-loop connectivity
errors and never terminates on its own provided each subsequent
`create_redis_connection()` succeeds; a reconnection attempt that itself
fails exits the process with status 1, and otherwise only an operator
interrupt ends the loop. -/
theorem C3_reconnect_retries (s : SessionState) (evs : List LoopEvent)
    (h0 : s.done = none)
    (h : ∀ e ∈ evs, e ≠ LoopEvent.interrupt ∧ e ≠ LoopEvent.connError false) :
    (run s evs).done = none := by
  induction evs generalizing s with
  | nil => exact h0
  | cons e es ih =>
    unfold run
    rw [h0]
    simp only [Option.isSome_none, Bool.false_eq_true, if_false]
    refine ih (step s e) ?_ fun x hx => h x (List.mem_cons_of_mem _ hx)
    obtain ⟨hni, hncf⟩ := h e (List.mem_cons_self e es)
    cases e with
    | read batch => rw [step]; rw [processBatch_done]; exact h0
    | connError ok =>
      cases ok with
      | true => rw [step]; simpa using h0
      | false => exact absurd rfl hncf
    | interrupt => exact absurd rfl hni

/-- Witness for C3: a concrete run with two successful reconnects and an
interleaved read does not terminate. -/
theorem C3_witness :
    (run initialState [LoopEvent.connError true, LoopEvent.read [],
      LoopEvent.connError true]).done = none :=
  C3_reconnect_retries initialState
    [LoopEvent.connError true, LoopEvent.read [], LoopEvent.connError true]
    (by decide) (by decide)

/-- C10: both consumer loops read with `count=1`, so under the broker
contract every successful read delivers at most one entry. -/
theorem C10_single_entry_reads (stream : String) (s : SessionState)
    (cursor : StreamPos) (b1 b2 : List Entry)
    (h1 : BrokerReply (ingestReadRequest stream s) b1)
    (h2 : BrokerReply (observeReadRequest stream cursor) b2) :
    (ingestReadRequest stream s).count = 1 ∧
    (observeReadRequest stream cursor).count = 1 ∧
    b1.length ≤ 1 ∧ b2.length ≤ 1 :=
  ⟨rfl, rfl, h1, h2⟩

/-- Witness for C10: the request shapes and a maximal concrete reply. -/
theorem C10_witness :
    (ingestReadRequest "orders" initialState).count = 1 ∧
    (observeReadRequest "orders" StreamPos.latest).count = 1 ∧
    ([] : List Entry).length ≤ 1 ∧
    ([{ id := 1, data := rowC9, outcome := EntryOutcome.normal true }]
      : List Entry).length ≤ 1 :=
  C10_single_entry_reads "orders" initialState StreamPos.latest []
    [{ id := 1, data := rowC9, outcome := EntryOutcome.normal true }]
    (by simp [BrokerReply]) (by simp [BrokerReply, observeReadRequest])


lemma rejectionCount_processing (i : Nat) :
    rejectionCount [LogEvent.processingEntry i] = 0 := rfl

lemma rejectionCount_savedOk (k : String) :
    rejectionCount [LogEvent.savedOk k] = 0 := rfl

lemma processBatch_stats (s : SessionState) (b : List Entry)
    (h : ∀ e ∈ b, e.outcome = EntryOutcome.normal true) :
    (processBatch s b).saves.length = s.saves.length
        + (b.filter fun e => (process_order e.data).1.isSome).length ∧
    (processBatch s b).processedCount = s.processedCount
        + (b.filter fun e => (process_order e.data).1.isSome).length ∧
    rejectionCount (processBatch s b).log = rejectionCount s.log
        + (b.filter fun e => (process_order e.data).1.isNone).length := by
  induction b generalizing s with
  | nil => simp [processBatch]
  | cons e es ih =>
    obtain ⟨i, d, oc⟩ := e
    have he := h ⟨i, d, oc⟩ (List.mem_cons_self _ _)
    simp only at he
    subst he
    simp only [processBatch]
    cases hpo : (process_order d).1 with
    | some o =>
      rw [processEntryN_valid_saved s i d o hpo]
      obtain ⟨ih1, ih2, ih3⟩ :=
        ih _ (fun x hx => h x (List.mem_cons_of_mem _ hx))
      refine ⟨?_, ?_, ?_⟩
      · rw [ih1]
        simp [List.filter_cons, hpo]
        all_goals omega
      · rw [ih2]
        simp [List.filter_cons, hpo]
        all_goals omega
      · rw [ih3, rejectionCount_append, rejectionCount_append,
          rejectionCount_processing, rejectionCount_savedOk]
        simp [List.filter_cons, hpo]
    | none =>
      rw [processEntryN_invalid true s i d hpo]
      obtain ⟨ih1, ih2, ih3⟩ :=
        ih _ (fun x hx => h x (List.mem_cons_of_mem _ hx))
      refine ⟨?_, ?_, ?_⟩
      · rw [ih1]
        simp [List.filter_cons, hpo]
      · rw [ih2]
        simp [List.filter_cons, hpo]
      · rw [ih3, rejectionCount_append, rejectionCount_append,
          rejectionCount_processing,
          process_order_none_rejections d hpo]
        simp [List.filter_cons, hpo]
        all_goals omega

lemma pairwise_id_last_max (b : List Entry) (z : Entry)
    (hp : b.Pairwise (fun a c => a.id < c.id)) (hz : b.getLast? = some z) :
    ∀ e ∈ b, e.id ≤ z.id := by
  induction b with
  | nil => intro e he; simp at he
  | cons a t ih =>
    rw [List.pairwise_cons] at hp
    intro e he
    cases t with
    | nil =>
      simp only [List.getLast?_singleton, Option.some.injEq] at hz
      subst hz
      simp only [List.mem_singleton] at he
      subst he
      exact le_rfl
    | cons a2 t2 =>
      rw [List.getLast?_cons_cons] at hz
      rcases List.mem_cons.mp he with h1 | h2
      · subst h1
        have hzm : z ∈ a2 :: t2 := List.mem_of_mem_getLast? (by exact hz)
        exact le_of_lt (hp.1 z hzm)
      · exact ih hp.2 hz e h2

/-- C4: a batch of N+1 entries, exactly one of which fails validation
while the other N validate and persist successfully, yields exactly N
persisted records, exactly one rejection log line, and the cursor advanced
to the last entry's position — past every entry when the batch is in
increasing delivery order. -/
theorem C4_fault_isolation (s : SessionState) (b pre post : List Entry)
    (i : Nat) (d : RawRecord) (z : Entry)
    (hb : b = pre ++
      { id := i, data := d, outcome := EntryOutcome.normal true } :: post)
    (hpre : ∀ e ∈ pre, (process_order e.data).1.isSome = true ∧
      e.outcome = EntryOutcome.normal true)
    (hpost : ∀ e ∈ post, (process_order e.data).1.isSome = true ∧
      e.outcome = EntryOutcome.normal true)
    (hbad : (process_order d).1 = none)
    (hz : b.getLast? = some z)
    (hsorted : (b.map Entry.id).Pairwise (· < ·)) :
    (processBatch s b).saves.length
      = s.saves.length + (pre.length + post.length) ∧
    (processBatch s b).processedCount
      = s.processedCount + (pre.length + post.length) ∧
    rejectionCount (processBatch s b).log = rejectionCount s.log + 1 ∧
    (processBatch s b).cursor = StreamPos.pos z.id ∧
    ∀ e ∈ b, e.id ≤ z.id := by
  have hall : ∀ e ∈ b, e.outcome = EntryOutcome.normal true := by
    subst hb
    intro e he
    rcases List.mem_append.mp he with h1 | h1
    · exact (hpre e h1).2
    · rcases List.mem_cons.mp h1 with h2 | h2
      · subst h2; rfl
      · exact (hpost e h2).2
  have hstats := processBatch_stats s b hall
  have hfilter :
      (b.filter fun e => (process_order e.data).1.isSome).length
        = pre.length + post.length := by
    subst hb
    rw [List.filter_append, List.filter_cons]
    have h1 : pre.filter (fun e => (process_order e.data).1.isSome) = pre :=
      List.filter_eq_self.mpr fun a ha => (hpre a ha).1
    have h2 : post.filter (fun e => (process_order e.data).1.isSome) = post :=
      List.filter_eq_self.mpr fun a ha => (hpost a ha).1
    simp [h1, h2, hbad]
  have hfilterneg :
      (b.filter fun e => (process_order e.data).1.isNone).length = 1 := by
    subst hb
    rw [List.filter_append, List.filter_cons]
    have h1 : pre.filter (fun e => (process_order e.data).1.isNone) = [] :=
      List.filter_eq_nil_iff.mpr fun a ha hN => by
        have hs := (hpre a ha).1
        rw [Option.isNone_iff_eq_none] at hN
        rw [hN] at hs
        simp at hs
    have h2 : post.filter (fun e => (process_order e.data).1.isNone) = [] :=
      List.filter_eq_nil_iff.mpr fun a ha hN => by
        have hs := (hpost a ha).1
        rw [Option.isNone_iff_eq_none] at hN
        rw [hN] at hs
        simp at hs
    simp [h1, h2, hbad]
  refine ⟨?_, ?_, ?_, ?_, ?_⟩
  · rw [hstats.1, hfilter]
  · rw [hstats.2.1, hfilter]
  · rw [hstats.2.2, hfilterneg]
  · exact processBatch_cursor_last s b z
      (fun e he => by simp [Entry.isNormal, hall e he]) hz
  · exact pairwise_id_last_max b z (List.pairwise_map.mp hsorted) hz

/-- Witness for C4: a concrete batch of three entries whose middle entry
has an unparseable date. -/
theorem C4_witness :
    (processBatch initialState
      [{ id := 1, data := rowC9, outcome := EntryOutcome.normal true },
       { id := 2, data := badDateRow, outcome := EntryOutcome.normal true },
       { id := 3, data := rowC9, outcome := EntryOutcome.normal true }]
      ).saves.length = initialState.saves.length + (1 + 1) ∧
    rejectionCount (processBatch initialState
      [{ id := 1, data := rowC9, outcome := EntryOutcome.normal true },
       { id := 2, data := badDateRow, outcome := EntryOutcome.normal true },
       { id := 3, data := rowC9, outcome := EntryOutcome.normal true }]
      ).log = rejectionCount initialState.log + 1 :=
  ⟨(C4_fault_isolation initialState _
      [{ id := 1, data := rowC9, outcome := EntryOutcome.normal true }]
      [{ id := 3, data := rowC9, outcome := EntryOutcome.normal true }]
      2 badDateRow
      { id := 3, data := rowC9, outcome := EntryOutcome.normal true }
      rfl (by decide) (by decide) (by decide) (by decide) (by decide)).1,
   (C4_fault_isolation initialState _
      [{ id := 1, data := rowC9, outcome := EntryOutcome.normal true }]
      [{ id := 3, data := rowC9, outcome := EntryOutcome.normal true }]
      2 badDateRow
      { id := 3, data := rowC9, outcome := EntryOutcome.normal true }
      rfl (by decide) (by decide) (by decide) (by decide) (by decide)).2.2.1⟩

lemma take_getLast (b : List Entry) (k : Nat) (hk1 : 1 ≤ k)
    (hk2 : k ≤ b.length) (hkl : k - 1 < b.length) :
    (b.take k).getLast? = some b[k - 1] := by
  rw [List.getLast?_eq_getElem?, List.length_take]
  rw [min_eq_left hk2]
  rw [List.getElem?_take]
  rw [if_pos (by omega)]
  exact List.getElem?_eq_getElem hkl

/-- C7: within one session, with entries delivered in strictly increasing
position order, the cursor never regresses — after any later prefix of
advances the cursor position is strictly after the one held after any
earlier nonempty prefix. -/
theorem C7_cursor_monotone (s : SessionState) (b : List Entry) (m n : Nat)
    (hnorm : ∀ e ∈ b, e.isNormal = true)
    (hsorted : (b.map Entry.id).Pairwise (· < ·))
    (hm : 1 ≤ m) (hmn : m < n) (hn : n ≤ b.length) :
    StreamPos.idLt (processBatch s (b.take m)).cursor
      (processBatch s (b.take n)).cursor := by
  have hmlen : m ≤ b.length := le_trans (le_of_lt hmn) hn
  have hm1 : m - 1 < b.length := by omega
  have hn1 : n - 1 < b.length := by omega
  have hA := processBatch_cursor_last s (b.take m) (b[m - 1])
    (fun e he => hnorm e (List.mem_of_mem_take he))
    (take_getLast b m hm hmlen hm1)
  have hB := processBatch_cursor_last s (b.take n) (b[n - 1])
    (fun e he => hnorm e (List.mem_of_mem_take he))
    (take_getLast b n (by omega) hn hn1)
  rw [hA, hB]
  have hlt := List.pairwise_iff_getElem.mp hsorted (m - 1) (n - 1)
    (by simpa using hm1) (by simpa using hn1) (by omega)
  simp only [List.getElem_map] at hlt
  exact hlt

/-- Witness for C7: two concrete increasing entries, prefixes of length
one and two. -/
theorem C7_witness :
    StreamPos.idLt
      (processBatch initialState
        ([{ id := 4, data := rowC9, outcome := EntryOutcome.normal true },
          { id := 9, data := badDateRow,
            outcome := EntryOutcome.normal true }].take 1)).cursor
      (processBatch initialState
        ([{ id := 4, data := rowC9, outcome := EntryOutcome.normal true },
          { id := 9, data := badDateRow,
            outcome := EntryOutcome.normal true }].take 2)).cursor :=
  C7_cursor_monotone initialState
    [{ id := 4, data := rowC9, outcome := EntryOutcome.normal true },
     { id := 9, data := badDateRow, outcome := EntryOutcome.normal true }]
    1 2 (by decide) (by decide) (by decide) (by decide) (by decide)
